import Mathlib

/-!
Shallow embedding of the extraction engine of `src/geoapp.py` (a heuristic
spreadsheet-field extractor) together with proofs about it.

Modelling conventions:
* A spreadsheet cell is `Cell`: a missing value (pandas `NaN`), a string, or a
  number.  Python/IEEE floats are modelled as exact rationals; `NaN` produced by
  `float(nan)` is modelled by the `none` case of `EFloat := Option ℚ`.
* `str(cell)` is `Cell.toStr`.  For numbers it renders integral values the way
  Python renders integral floats (`"1200.0"`); non-integral rationals (which
  real spreadsheet floats approximate) are rendered with a `/` separator - all
  facts proved about the rendering only use that it starts with a digit or `-`.
* Python exceptions are modelled with `Except Unit`; `try/except: pass` becomes
  `tryPass`.  The string form accepted by Python's `float` is modelled for the
  ASCII decimal grammar (sign, digits, dot, exponent); the exotic `inf`, `nan`,
  underscore-separated and non-ASCII-digit literals are not modelled, and
  `str.isdigit` is modelled on ASCII digits.
* Character and whitespace predicates follow Python ASCII semantics.
-/

/-! ### Characters and strings -/

/-- ASCII whitespace as stripped by Python `str.strip` / `float`. -/
def isPySpace (c : Char) : Bool :=
  c = ' ' ∨ c = '\t' ∨ c = '\n' ∨ c = '\r' ∨ c = '\x0b' ∨ c = '\x0c'

/-- The decimal digit character for `n % 10`-style arguments. -/
def digitChar (n : Nat) : Char :=
  if n = 0 then '0' else if n = 1 then '1' else if n = 2 then '2'
  else if n = 3 then '3' else if n = 4 then '4' else if n = 5 then '5'
  else if n = 6 then '6' else if n = 7 then '7' else if n = 8 then '8' else '9'

/-- Decimal digits of `n`, most significant first (fuel-driven so that it
reduces by `decide`/`rfl`). -/
def natDigsGo : Nat → Nat → List Char
  | 0, _ => []
  | fuel + 1, n =>
    if n < 10 then [digitChar n]
    else natDigsGo fuel (n / 10) ++ [digitChar (n % 10)]

/-- Decimal rendering of a natural number. -/
def natDigs (n : Nat) : List Char := natDigsGo (n + 1) n

/-- Decimal rendering of an integer, as Python renders `int`s. -/
def intStr : Int → List Char
  | .ofNat n => natDigs n
  | .negSucc n => '-' :: natDigs (n + 1)

/-- Python rendering `str(x)` of a float modelled as a rational: integral
values render as Python integral floats (`"5.0"`); non-integral values use an
auxiliary `num/den` rendering (every fact proved about renderings only uses the
first character, which is a digit or `-` in both cases). -/
def ratStr (q : ℚ) : List Char :=
  if q.den = 1 then intStr q.num ++ ['.', '0']
  else intStr q.num ++ '/' :: natDigs q.den

/-- `l₁` is a prefix of `l₂` (Boolean, on `Char` lists). -/
def chPrefix : List Char → List Char → Bool
  | [], _ => true
  | _ :: _, [] => false
  | a :: as, b :: bs => if a = b then chPrefix as bs else false

/-- `needle` occurs as a contiguous substring of the second list. -/
def chSub (needle : List Char) : List Char → Bool
  | [] => chPrefix needle []
  | b :: bs => chPrefix needle (b :: bs) || chSub needle bs

/-- Python's `needle in hay` on strings. -/
def strContains (hay needle : String) : Bool :=
  chSub needle.toList hay.toList

/-- ASCII lower-casing, as used by a case-insensitive substring match. -/
def lowChar (c : Char) : Char :=
  if 'A' ≤ c ∧ c ≤ 'Z' then Char.ofNat (c.toNat + 32) else c

/-- Case-insensitive substring containment: pandas
`.str.contains(label, case=False)` (the labels contain no regex metacharacters,
so the match is a plain substring match). -/
def strContainsCI (hay needle : String) : Bool :=
  chSub (needle.toList.map lowChar) (hay.toList.map lowChar)

/-- Python `str.strip()` (ASCII whitespace model). -/
def pyStrip (s : String) : String :=
  ⟨((s.toList.dropWhile isPySpace).reverse.dropWhile isPySpace).reverse⟩

/-- `s.replace('.', '')`. -/
def stripDots (s : String) : String := ⟨s.toList.filter (· ≠ '.')⟩

/-- Python `str.isdigit` (ASCII model): nonempty and all digits. -/
def pyIsdigit (s : String) : Bool :=
  !s.toList.isEmpty && s.toList.all Char.isDigit

/-! ### Cells and grids -/

/-- One spreadsheet cell as handed to the extractors by `pd.read_excel`:
missing (`NaN`), a string, or a number (floats modelled as rationals). -/
inductive Cell where
  | missing
  | str (s : String)
  | num (q : ℚ)
deriving DecidableEq

/-- A sheet: a grid of rows of cells (`df` in the source). -/
abbrev Grid := List (List Cell)

/-- Python `str(cell)`: `str(nan) = "nan"`. -/
def Cell.toStr : Cell → String
  | .missing => "nan"
  | .str s => s
  | .num q => ⟨ratStr q⟩

/-- `pd.notna(cell)`. -/
def notna : Cell → Bool
  | .missing => false
  | _ => true

/-- The digit test applied throughout the source:
`str(x).replace('.', '').isdigit()`. -/
def digitTest (c : Cell) : Bool := pyIsdigit (stripDots c.toStr)

/-- Python `cell in [s₁, s₂, …]` for a list of string literals: only string
cells can compare equal to a string. -/
def cellInStrList (c : Cell) (l : List String) : Bool :=
  match c with
  | .str t => l.contains t
  | _ => false

/-- `' '.join([str(cell) for cell in row if pd.notna(cell)])`. -/
def rowJoin (row : List Cell) : String :=
  String.intercalate " " ((row.filter notna).map Cell.toStr)

/-! ### Python float parsing -/

/-- A Python float value: `none` models IEEE `NaN`, `some q` a (finite)
numeric value modelled exactly as a rational. -/
abbrev EFloat := Option ℚ

/-- Numeric value of a digit list (most significant first). -/
def digitsToNat (l : List Char) : Nat :=
  l.foldl (fun a c => a * 10 + (c.toNat - 48)) 0

/-- Leading-sign split for `float` parsing. -/
def splitSign : List Char → Bool × List Char
  | '+' :: t => (false, t)
  | '-' :: t => (true, t)
  | t => (false, t)

/-- The exponent tail of a `float` literal applied to a scaled mantissa
(numerator `mnum` over `10 ^ fplen`); the rational value is assembled with
`mkRat` so that it evaluates by kernel reduction. -/
def expTail (mnum : Int) (fplen : Nat) (t : List Char) : Option ℚ :=
  let (eneg, t2) := splitSign t
  let ed := t2.takeWhile Char.isDigit
  if ed.isEmpty || !(t2.dropWhile Char.isDigit).isEmpty then none
  else if eneg then some (mkRat mnum (10 ^ fplen * 10 ^ digitsToNat ed))
  else some (mkRat (mnum * 10 ^ digitsToNat ed) (10 ^ fplen))

/-- Python `float(s)` on a string, for the ASCII decimal grammar
`[ws] [sign] (digits [. digits] | . digits) [(e|E) [sign] digits] [ws]`.
(`inf`/`nan`/underscore literals are not modelled.) -/
def parseFloatChars (l0 : List Char) : Option ℚ :=
  let l := ((l0.dropWhile isPySpace).reverse.dropWhile isPySpace).reverse
  let (neg, l2) := splitSign l
  let ip := l2.takeWhile Char.isDigit
  let r1 := l2.dropWhile Char.isDigit
  let fp := match r1 with
    | '.' :: t => t.takeWhile Char.isDigit
    | _ => []
  let r2 := match r1 with
    | '.' :: t => t.dropWhile Char.isDigit
    | t => t
  if ip.isEmpty && fp.isEmpty then none
  else
    let mnat : Int := (digitsToNat ip * 10 ^ fp.length + digitsToNat fp : Nat)
    let mnum : Int := if neg then -mnat else mnat
    match r2 with
    | [] => some (mkRat mnum (10 ^ fp.length))
    | 'e' :: t => expTail mnum fp.length t
    | 'E' :: t => expTail mnum fp.length t
    | _ => none

/-- Python `float(s)` on a string. -/
def parseFloatS (s : String) : Option ℚ := parseFloatChars s.toList

/-- Python `float(cell)`: numbers pass through, `NaN` gives float `nan`
(a successful call), strings parse or raise. -/
def pyFloatE : Cell → Except Unit EFloat
  | .missing => .ok none
  | .num q => .ok (some q)
  | .str s =>
    match parseFloatS s with
    | some q => .ok (some q)
    | none => .error ()

/-- `try: st ← body except: pass` - the handler restores the pre-`try` state. -/
def tryPass {σ : Type _} (st : σ) (body : Except Unit σ) : σ :=
  match body with
  | .ok s => s
  | .error _ => st

/-! ### Overwrite / first-hit accumulators -/

/-- One loop iteration of an overwrite-on-match scan: a successful attempt
replaces the accumulator, a failed one leaves it. -/
def updO {α : Type _} (a o : Option α) : Option α :=
  match o with
  | some v => some v
  | none => a

/-- The value left by an overwrite-on-match scan: the last `some` of the list
(or `none`). -/
def lastSome {α : Type _} (l : List (Option α)) : Option α :=
  l.foldl updO none

/-- The value of a break-on-first-hit scan: the first `some` of the list. -/
def firstSome {α : Type _} : List (Option α) → Option α
  | [] => none
  | o :: t =>
    match o with
    | some v => some v
    | none => firstSome t

/-! ### `extract_well_info` (geoapp.py lines 55-138) -/

/-- The `well_info` dictionary (all fields optional). -/
structure WellInfo where
  concession : Option String := none
  well : Option String := none
  date : Option String := none
  report_no : Option String := none
  rkb : Option String := none
  spud_date : Option String := none
  geologist : Option String := none
deriving DecidableEq

/-- The row filter
`df[df.apply(lambda row: row.astype(str).str.contains(label, case=False).any(), axis=1)]`. -/
def rowPassesCI (label : String) (row : List Cell) : Bool :=
  row.any (fun c => strContainsCI c.toStr label)

/-- The inner per-row loop of each well-info rule: find the first cell whose
string contains the label (case-sensitively) - and the `":-"` marker when
`needMark` - then take `str` of the cell one column to the right if it exists
(`break` fires whether or not the bound check passes). -/
def rowLabelAttempt (label : String) (needMark : Bool) (row : List Cell) : Option String :=
  match (row.enum).find? (fun p =>
      strContains p.2.toStr label && (!needMark || strContains p.2.toStr ":-")) with
  | some (i, _) =>
    if i + 1 < row.length then some (row.getD (i + 1) .missing).toStr else none
  | none => none

/-- One labelled-field rule of `extract_well_info`: scan the case-insensitively
filtered rows, each successful per-row attempt overwriting the previous value. -/
def findLabeled (label : String) (needMark : Bool) (g : Grid) : Option String :=
  lastSome ((g.filter (rowPassesCI label)).map (rowLabelAttempt label needMark))

/-- The per-row scan of the geologist fallback (lines 133-136): the first cell
containing one of the known personnel names, as a string. -/
def geoRowAttempt (row : List Cell) : Option String :=
  (row.find? (fun c =>
      strContains c.toStr "Youssef" || strContains c.toStr "Mahmoud" ||
      strContains c.toStr "Soliman")).map Cell.toStr

/-- The rows visited by `range(len(df)-1, max(0, len(df)-10), -1)` (line 131),
from the bottom upwards, the stop index excluded. -/
def geoWindow (g : Grid) : List (List Cell) :=
  (((List.range g.length).filter (fun i => g.length - 10 < i)).reverse).map
    (fun i => g.getD i [])

/-- The geologist fallback of lines 129-136: each matching row overwrites
(the inner `break` only ends the per-row cell scan). -/
def fallbackGeo (g : Grid) : Option String :=
  lastSome ((geoWindow g).map geoRowAttempt)

/-- `extract_well_info` (lines 55-138). -/
def extract_well_info (g : Grid) : Except Unit WellInfo :=
  .ok
    { concession := findLabeled "Concession" false g
      well := findLabeled "Well" true g
      date := findLabeled "Date" true g
      report_no := findLabeled "Report No" false g
      rkb := findLabeled "RKB" true g
      spud_date := findLabeled "Spud Date" false g
      geologist :=
        if (g.filter (rowPassesCI "Geologist")).isEmpty then fallbackGeo g
        else findLabeled "Geologist" false g }

/-! ### `extract_depths` (lines 140-172) -/

/-- The three depth fields while scanning (dictionary keys optional; values are
Python floats, possibly `NaN`). -/
structure DepthState where
  depth_24hr : Option EFloat := none
  depth_00hr : Option EFloat := none
  depth_06hr : Option EFloat := none
deriving DecidableEq

/-- The `depths` dictionary returned by `extract_depths`. -/
structure Depths where
  depth_24hr : Option EFloat := none
  depth_00hr : Option EFloat := none
  depth_06hr : Option EFloat := none
  progress_24hr : Option EFloat := none
  progress_6hr : Option EFloat := none
deriving DecidableEq

/-- Float subtraction (`NaN` propagates). -/
def esub (a b : EFloat) : EFloat :=
  match a, b with
  | some x, some y => some (x - y)
  | _, _ => none

/-- The per-cell `if/elif` chain of lines 148-163; `p` is `(col_idx, cell)`. -/
def depthsCellStep (row : List Cell) (st : DepthState) (p : Nat × Cell) : DepthState :=
  let cs := p.2.toStr
  if strContains cs "24:00 Hrs" ∧ p.1 + 1 < row.length then
    tryPass st (do
      let v ← pyFloatE (row.getD (p.1 + 1) .missing)
      pure { st with depth_24hr := some v })
  else if strContains cs "00:00 Hrs" ∧ p.1 + 1 < row.length then
    tryPass st (do
      let v ← pyFloatE (row.getD (p.1 + 1) .missing)
      pure { st with depth_00hr := some v })
  else if strContains cs "06:00 Hrs" ∧ p.1 + 1 < row.length then
    tryPass st (do
      let v ← pyFloatE (row.getD (p.1 + 1) .missing)
      pure { st with depth_06hr := some v })
  else st

/-- The full-grid scan of lines 146-163. -/
def depthsScan (g : Grid) : DepthState :=
  g.foldl (fun st row => (row.enum).foldl (depthsCellStep row) st) {}

/-- The progress derivation of lines 165-170. -/
def addProgress (st : DepthState) : Depths :=
  { depth_24hr := st.depth_24hr
    depth_00hr := st.depth_00hr
    depth_06hr := st.depth_06hr
    progress_24hr :=
      match st.depth_24hr, st.depth_00hr with
      | some a, some b => some (esub b a)
      | _, _ => none
    progress_6hr :=
      match st.depth_00hr, st.depth_06hr with
      | some b, some c => some (esub c b)
      | _, _ => none }

/-- `extract_depths` (lines 140-172). -/
def extract_depths (g : Grid) : Except Unit Depths :=
  .ok (addProgress (depthsScan g))

/-! ### `extract_formation_tops` (lines 174-214) -/

/-- One `formation_data` record. -/
structure FormationTop where
  name : String
  prognosed_md : Option EFloat := none
  actual_md : Option EFloat := none
deriving DecidableEq

/-- The non-formation tokens of line 194. -/
def denyTokens : List String :=
  ["", " ", "DABAA", "APOLLONIA", "KHOMAN", "ABU ROASH", "BAHARIYA", "KHARITA", "T.D."]

/-- One guarded MD field (lines 197-209):
`if len(row) > k and notna and digit-test: try: float(...) except: pass`. -/
def mdField (row : List Cell) (k : Nat) : Option EFloat :=
  let c := row.getD k .missing
  if k < row.length ∧ notna c ∧ digitTest c then
    match pyFloatE c with
    | .ok v => some v
    | .error _ => none
  else none

/-- The data-row check of lines 190-212: accept column 2 as a formation name
unless missing or a deny-list token; `formation_data` is then nonempty (the
name is set), so the record is always appended. -/
def ftopsCheckRow (row : List Cell) : List FormationTop :=
  let c2 := row.getD 2 .missing
  if 2 < row.length ∧ notna c2 ∧ ¬cellInStrList c2 denyTokens then
    [{ name := c2.toStr, prognosed_md := mdField row 7, actual_md := mdField row 9 }]
  else []

/-- One row of the header-anchored scan of lines 181-212; the state is the
most recent header row index (if any) and the output so far. -/
def ftopsStep (st : Option Nat × List FormationTop) (p : Nat × List Cell) :
    Option Nat × List FormationTop :=
  let rstr := rowJoin p.2
  if strContains rstr "Formation Name" ∧ strContains rstr "Prognosed" ∧
      strContains rstr "Actual Drilled" then
    (some p.1, st.2)
  else
    match st.1 with
    | some h => if p.1 > h then (st.1, st.2 ++ ftopsCheckRow p.2) else st
    | none => st

/-- `extract_formation_tops` (lines 174-214). -/
def extract_formation_tops (g : Grid) : Except Unit (List FormationTop) :=
  .ok ((g.enum).foldl ftopsStep (none, [])).2

/-! ### `extract_gas_readings` (lines 216-247) -/

/-- The `gas_data` dictionary in insertion order: formation name mapped to an
optional `'TG'` entry (`none` = the inner dictionary is still `{}`). -/
abbrev GasDict := List (String × Option EFloat)

/-- Python truthiness of `current_formation` (an optional string): `None` and
`''` are falsy. -/
def pyTruthy : Option String → Bool
  | none => false
  | some s => !(s = "")

/-- `gas_data[f] = {}`: overwrite in place if the key exists, else append. -/
def setEntryEmpty (gd : GasDict) (f : String) : GasDict :=
  if gd.any (fun e => e.1 = f) then
    gd.map (fun e => if e.1 = f then (f, none) else e)
  else gd ++ [(f, none)]

/-- `gas_data[f]['TG'] = v`, which raises `KeyError` (here `none`) when `f` is
not a key. -/
def updTG (gd : GasDict) (f : String) (v : EFloat) : Option GasDict :=
  if gd.any (fun e => e.1 = f) then
    some (gd.map (fun e => if e.1 = f then (f, some v) else e))
  else none

/-- `row.tolist().index(cell)`: the first position equal to `cell`
(`ValueError`, here `Except.error`, if absent - the caller always passes a
member). -/
def listIndexE (row : List Cell) (c : Cell) : Except Unit Nat :=
  match row.findIdx? (fun x => x = c) with
  | some i => .ok i
  | none => .error ()

/-- The look-ahead loop of lines 238-245: for each of the next rows, if column
3 is present, non-missing and digit-tested, `try` parse-and-assign (`break` on
success; a parse failure - or a `KeyError` on the dictionary - is caught and
the loop continues). -/
def tgLoop (gd : GasDict) (cf : String) : List (List Cell) → GasDict
  | [] => gd
  | row :: rest =>
    let c3 := row.getD 3 .missing
    if 3 < row.length ∧ notna c3 ∧ digitTest c3 then
      match pyFloatE c3 with
      | .ok v =>
        match updTG gd cf v with
        | some gd2 => gd2
        | none => tgLoop gd cf rest
      | .error _ => tgLoop gd cf rest
    else tgLoop gd cf rest

/-- The rows `df.iloc[idx+1 : min(idx+5, len(df))]` visited by the look-ahead. -/
def lookRows (g : Grid) (idx : Nat) : List (List Cell) :=
  (List.range' (idx + 1) (min (idx + 5) g.length - (idx + 1))).map (fun j => g.getD j [])

/-- The per-cell body of lines 224-245; the state is
`(current_formation, gas_data)`. -/
def gasCellStep (g : Grid) (idx : Nat) (row : List Cell)
    (st : Option String × GasDict) (cell : Cell) :
    Except Unit (Option String × GasDict) :=
  let cs := cell.toStr
  if strContains cs "Max. Gas Reading at:" then do
    let ci ← listIndexE row cell
    let nb := row.getD (ci + 1) .missing
    if ci + 1 < row.length ∧ notna nb then
      pure (some nb.toStr, setEntryEmpty st.2 nb.toStr)
    else pure st
  else if strContains cs "T.G" ∧ pyTruthy st.1 then
    match st.1 with
    | some cf => pure (st.1, tgLoop st.2 cf (lookRows g idx))
    | none => pure st
  else pure st

/-- `extract_gas_readings` (lines 216-247). -/
def extract_gas_readings (g : Grid) : Except Unit GasDict := do
  let st ← (g.enum).foldlM
    (fun st p => p.2.foldlM (gasCellStep g p.1 p.2) st) ((none : Option String), ([] : GasDict))
  pure st.2

/-! ### `extract_lithological_description` (lines 249-297) -/

/-- One emitted lithology record. -/
structure LithoDesc where
  depth : String
  lithology : String
  description : String
deriving DecidableEq

/-- The scan state of lines 254-256 plus the output list. -/
structure LithoState where
  current_depth : Option String := none
  current_lithology : Option String := none
  buf : List String := []
  out : List LithoDesc := []
deriving DecidableEq

/-- The boilerplate keywords of line 286. -/
def lithoBoiler : List String :=
  ["North Bahariya", "Well", "Date", "Lithological Description"]

/-- Scan to just after the first occurrence of `needle`, if any. -/
def afterFirst (needle : List Char) : List Char → Option (List Char)
  | [] => if chPrefix needle [] then some [] else none
  | c :: t =>
    if chPrefix needle (c :: t) then some ((c :: t).drop needle.length)
    else afterFirst needle t

/-- The first maximal digit run of the list: `(run, rest after the run)`. -/
def firstDigitRun : List Char → Option (List Char × List Char)
  | [] => none
  | c :: t =>
    if c.isDigit then some ((c :: t).takeWhile Char.isDigit, (c :: t).dropWhile Char.isDigit)
    else firstDigitRun t

/-- `re.search(r'From.*?(\d+).*?To.*?(\d+)', s)` (line 275).  With this
pattern the leftmost match and lazy/greedy capture semantics reduce to: the
first digit run after the first `"From"`, then the first digit run after the
next `"To"` (the pattern pieces `To`/digits cannot overlap a digit run, so no
backtracking case yields a different result). -/
def depthSearch (s : String) : Option (String × String) := do
  let r1 ← afterFirst "From".toList s.toList
  let (g1, r2) ← firstDigitRun r1
  let r3 ← afterFirst "To".toList r2
  let (g2, _) ← firstDigitRun r3
  pure (⟨g1⟩, ⟨g2⟩)

/-- `re.search(r'Lithology:\s*\*\s*(.*?)$', s)` (line 281): the first
`"Lithology:"` followed, after whitespace, by `'*'`; the capture is the rest of
the string after the whitespace following `'*'` (the trailing lazy group must
extend to the end of the line). -/
def lithSearch : List Char → Option (List Char)
  | [] => none
  | c :: t =>
    if chPrefix "Lithology:".toList (c :: t) then
      match ((c :: t).drop 10).dropWhile isPySpace with
      | '*' :: r2 => some (r2.dropWhile isPySpace)
      | _ => lithSearch t
    else lithSearch t

/-- The flush of lines 263-269 and 289-295: emit only when depth, lithology
and the buffer are all truthy. -/
def lithoFlush (st : LithoState) : LithoState :=
  if pyTruthy st.current_depth ∧ pyTruthy st.current_lithology ∧ ¬st.buf.isEmpty then
    { st with out := st.out ++
        [{ depth := st.current_depth.getD ""
           lithology := st.current_lithology.getD ""
           description := String.intercalate " " st.buf }] }
  else st

/-- One row of the state machine of lines 258-287. -/
def lithoRowStep (st : LithoState) (row : List Cell) : LithoState :=
  let rstr := rowJoin row
  if strContains rstr "Depth:" then
    let st2 := { lithoFlush st with buf := [] }
    match depthSearch rstr with
    | some (a, b) => { st2 with current_depth := some (a ++ " - " ++ b) }
    | none => st2
  else if strContains rstr "Lithology:" then
    match lithSearch rstr.toList with
    | some cap => { st with current_lithology := some (pyStrip ⟨cap⟩) }
    | none => st
  else if ¬(pyStrip rstr) = "" ∧ ¬lithoBoiler.any (fun k => strContains rstr k) then
    { st with buf := st.buf ++ [pyStrip rstr] }
  else st

/-- The row scan of `extract_lithological_description` without the final
flush. -/
def lithoRun (st : LithoState) (rows : Grid) : LithoState :=
  rows.foldl lithoRowStep st

/-- `extract_lithological_description` (lines 249-297). -/
def extract_lithological_description (g : Grid) : Except Unit (List LithoDesc) :=
  .ok (lithoFlush (lithoRun {} g)).out

/-! ### `extract_detailed_gas_readings` (lines 299-334) -/

/-- One `reading` dictionary: `DEPTH` is always present; each gas field is
present only when the row is long enough (its value is then the parsed float,
or `0` for a missing / non-digit-tested cell). -/
structure GasReading where
  DEPTH : EFloat
  TG : Option EFloat := none
  C1 : Option EFloat := none
  C2 : Option EFloat := none
  C3 : Option EFloat := none
  C4I : Option EFloat := none
  C4N : Option EFloat := none
  C5 : Option EFloat := none
deriving DecidableEq

/-- `float(row.iloc[k]) if pd.notna(row.iloc[k]) and digit-test else 0`
(the `float` call may raise, aborting the row). -/
def condVal (row : List Cell) (k : Nat) : Except Unit EFloat :=
  let c := row.getD k .missing
  if notna c ∧ digitTest c then pyFloatE c else pure (some 0)

/-- `if len(row) > k: reading[f] = condVal` - the key stays absent when the
row is too short. -/
def fieldVal (row : List Cell) (k : Nat) : Except Unit (Option EFloat) :=
  if k < row.length then do
    let v ← condVal row k
    pure (some v)
  else pure none

/-- The row body of lines 317-330 (inside the `try`): any raise aborts the
whole row. -/
def rowBody (row : List Cell) : Except Unit GasReading := do
  let d ← pyFloatE (row.getD 0 .missing)
  let tg ← fieldVal row 7
  let c1 ← fieldVal row 8
  let c2 ← fieldVal row 9
  let c3 ← fieldVal row 10
  let c4i ← fieldVal row 11
  let c4n ← fieldVal row 12
  let c5 ← fieldVal row 13
  pure { DEPTH := d, TG := tg, C1 := c1, C2 := c2, C3 := c3, C4I := c4i, C4N := c4n, C5 := c5 }

/-- One candidate data row (lines 316-332): the depth cell must be present,
non-missing and digit-tested; `except: continue` skips the row on any raise. -/
def mkReading (row : List Cell) : Option GasReading :=
  let c0 := row.getD 0 .missing
  if 0 < row.length ∧ notna c0 ∧ digitTest c0 then
    (rowBody row).toOption
  else none

/-- One row of the header-anchored scan of lines 306-332. -/
def dgrStep (st : Option Nat × List GasReading) (p : Nat × List Cell) :
    Option Nat × List GasReading :=
  let rstr := rowJoin p.2
  if strContains rstr "DEPTH" ∧ strContains rstr "TG" ∧ strContains rstr "C1" then
    (some p.1, st.2)
  else
    match st.1 with
    | some h =>
      if p.1 > h then
        (st.1, st.2 ++ (mkReading p.2).toList)
      else st
    | none => st

/-- `extract_detailed_gas_readings` (lines 299-334). -/
def extract_detailed_gas_readings (g : Grid) : Except Unit (List GasReading) :=
  .ok ((g.enum).foldl dgrStep (none, [])).2

/-! ### Specification-side derived notions

These restate scan behaviours for the claims; they are compared with the
embedded code by the theorems below. -/

/-- The value contribution of one cell to `depths['depth_24hr']`: the first
branch of the `if/elif` chain of lines 149-153. -/
def att24 (row : List Cell) (p : Nat × Cell) : Option EFloat :=
  if strContains p.2.toStr "24:00 Hrs" ∧ p.1 + 1 < row.length then
    (pyFloatE (row.getD (p.1 + 1) .missing)).toOption
  else none

/-- The value contribution of one cell to `depths['depth_00hr']` (the second
branch fires only when the first does not). -/
def att00 (row : List Cell) (p : Nat × Cell) : Option EFloat :=
  if ¬(strContains p.2.toStr "24:00 Hrs" ∧ p.1 + 1 < row.length) ∧
      (strContains p.2.toStr "00:00 Hrs" ∧ p.1 + 1 < row.length) then
    (pyFloatE (row.getD (p.1 + 1) .missing)).toOption
  else none

/-- The value contribution of one cell to `depths['depth_06hr']`. -/
def att06 (row : List Cell) (p : Nat × Cell) : Option EFloat :=
  if ¬(strContains p.2.toStr "24:00 Hrs" ∧ p.1 + 1 < row.length) ∧
      ¬(strContains p.2.toStr "00:00 Hrs" ∧ p.1 + 1 < row.length) ∧
      (strContains p.2.toStr "06:00 Hrs" ∧ p.1 + 1 < row.length) then
    (pyFloatE (row.getD (p.1 + 1) .missing)).toOption
  else none

/-- All per-cell attempts of one marker over the grid, in scan order. -/
def depthAtts (att : List Cell → Nat × Cell → Option EFloat) (g : Grid) :
    List (Option EFloat) :=
  (g.map (fun row => (row.enum).map (att row))).flatten

/-- The geologist-fallback window in ascending (top-to-bottom) row order. -/
def geoWindowAsc (g : Grid) : List (List Cell) :=
  ((List.range g.length).filter (fun i => g.length - 10 < i)).map (fun i => g.getD i [])

/-- A fully successful per-row candidate of the `T.G` look-ahead: column 3
present, non-missing, digit-tested and parseable. -/
def tgAttempt (row : List Cell) : Option EFloat :=
  let c3 := row.getD 3 .missing
  if 3 < row.length ∧ notna c3 ∧ digitTest c3 then (pyFloatE c3).toOption
  else none

/-- The in-place `'TG'` overwrite of a formation entry that is known to be
present. -/
def setTGval (gd : GasDict) (f : String) (v : EFloat) : GasDict :=
  gd.map (fun e => if e.1 = f then (f, some v) else e)

/-- Decidable equality of extraction results. -/
instance {ε α : Type _} [DecidableEq ε] [DecidableEq α] : DecidableEq (Except ε α) :=
  fun a b =>
  match a, b with
  | .ok x, .ok y =>
    if h : x = y then .isTrue (by rw [h]) else .isFalse (by intro hc; cases hc; exact h rfl)
  | .error x, .error y =>
    if h : x = y then .isTrue (by rw [h]) else .isFalse (by intro hc; cases hc; exact h rfl)
  | .ok _, .error _ => .isFalse (by intro hc; cases hc)
  | .error _, .ok _ => .isFalse (by intro hc; cases hc)

/-! ### Concrete inputs used by the claim checks -/

/-- A two-row sheet with a `24:00 Hrs` and a `00:00 Hrs` depth entry. -/
def wg2 : Grid := [[.str "24:00 Hrs", .num 1000], [.str "00:00 Hrs", .num 1050]]

/-- Its depths result. -/
def wd2 : Depths :=
  addProgress { depth_24hr := some (some 1000), depth_00hr := some (some 1050) }

/-- A sheet whose only label row is a `Spud Date` row with no `":-"` marker. -/
def cg3 : Grid := [[.str "Spud Date", .str "Jan 1"]]

/-- A sheet with a marked `Well` row and an unmarked `Spud Date` row. -/
def wg3 : Grid := [[.str "Well :-", .str "W-1"], [.str "Spud Date", .str "Jan 1"]]

/-- Its well-info result. -/
def ww3 : WellInfo := { well := some "W-1", spud_date := some "Jan 1" }

/-- A detailed-gas sheet whose data row has a depth column only. -/
def cg4 : Grid := [[.str "DEPTH TG C1"], [.str "2500"]]

/-- The reading it produces: no gas keys at all. -/
def cr4 : GasReading := { DEPTH := some 2500 }

/-- A detailed-gas sheet whose data row has columns 0-8. -/
def wg4 : Grid :=
  [[.str "DEPTH TG C1"],
   [.str "2500", .missing, .missing, .missing, .missing, .missing, .missing,
    .str "12", .str "5"]]

/-- The reading it produces: `TG`, `C1` present, the later columns absent. -/
def wr4 : GasReading := { DEPTH := some 2500, TG := some (some 12), C1 := some (some 5) }

/-- A formation-tops sheet with one data row. -/
def wg5 : Grid :=
  [[.missing, .str "Formation Name", .str "Prognosed", .str "Actual Drilled"],
   [.missing, .missing, .str "ASL", .missing, .missing, .missing, .missing, .str "1200",
    .missing, .str "1195"]]

/-- Its single formation record. -/
def wf5 : FormationTop :=
  { name := "ASL", prognosed_md := some (some 1200), actual_md := some (some 1195) }

/-- Two `24:00 Hrs` rows; the value of the second does not parse. -/
def cg6 : Grid := [[.str "24:00 Hrs", .str "100"], [.str "24:00 Hrs", .str "abc"]]

/-- The second (last matching) row of `cg6`. -/
def cg6row : List Cell := [.str "24:00 Hrs", .str "abc"]

/-- A sheet exercising a labelled field and a depth marker together. -/
def wg6 : Grid := [[.str "Concession", .str "A"], [.str "24:00 Hrs", .str "1"]]

/-- Its well-info result. -/
def ww6 : WellInfo := { concession := some "A" }

/-- Its depths result. -/
def wd6 : Depths := addProgress { depth_24hr := some (some 1) }

/-- No `Geologist` label; two personnel names, `Youssef` on the bottom row. -/
def cg7 : Grid := [[.str "x"], [.str "Mahmoud"], [.str "Youssef"]]

/-- The well-info result of `cg7`: the match furthest from the bottom wins. -/
def ww7 : WellInfo := { geologist := some "Mahmoud" }

/-- A gas-summary sheet where the first digit-tested look-ahead cell
(`"1.2.3"`) fails to parse and the scan moves on to `"5"`. -/
def cg8 : Grid :=
  [[.str "Max. Gas Reading at:", .str "F"], [.str "T.G"],
   [.missing, .missing, .missing, .str "1.2.3"],
   [.missing, .missing, .missing, .str "5"]]

/-- A gas-summary sheet with `T.G` cells but no `Max. Gas Reading at:` cell. -/
def wg8 : Grid := [[.str "T.G"], [.missing, .missing, .missing, .str "5"]]

/-- A one-formation dictionary. -/
def wgd8 : GasDict := [("F", none)]

/-- Two valid look-ahead rows. -/
def wrows8 : List (List Cell) :=
  [[.missing, .missing, .missing, .str "7"], [.missing, .missing, .missing, .str "9"]]

/-- The three-row lithology sheet of the specification scenario. -/
def g9 : Grid :=
  [[.str "Depth: From 100 To 150"], [.str "Lithology: * Sandstone"],
   [.str "Fine grained, gray"]]

/-- A lithology sheet with a second section that has no `Lithology:` row. -/
def g10 : Grid :=
  [[.str "Depth: From 100 To 150"], [.str "Lithology: * Sandstone"],
   [.str "Fine grained"], [.str "Depth: From 200 To 250"], [.str "Coarse grained"]]

/-- A mid-scan lithology state with depth and lithology set. -/
def wst10 : LithoState :=
  { current_depth := some "100 - 150", current_lithology := some "Sandstone" }

/-- A `Depth:` row. -/
def wrow10 : List Cell := [.str "Depth: From 200 To 250"]

/-- Rows containing no `Lithology:` marker. -/
def wrows10 : Grid := [[.str "Depth: From 200 To 250"], [.str "x y z"]]

/-! ### Helper lemmas -/

theorem foldl_updO {α : Type _} (l : List (Option α)) (a : Option α) :
    l.foldl updO a = updO a (lastSome l) := by
  induction l generalizing a with
  | nil => rfl
  | cons o t ih =>
    show (t.foldl updO (updO a o)) = _
    rw [ih (updO a o)]
    show _ = updO a (t.foldl updO (updO none o))
    rw [ih (updO none o)]
    cases o <;> cases lastSome t <;> rfl

theorem lastSome_append {α : Type _} (l1 l2 : List (Option α)) :
    lastSome (l1 ++ l2) = updO (lastSome l1) (lastSome l2) := by
  unfold lastSome
  rw [List.foldl_append, foldl_updO]
  rfl

theorem lastSome_cons {α : Type _} (o : Option α) (t : List (Option α)) :
    lastSome (o :: t) = updO (updO none o) (lastSome t) := by
  show (t.foldl updO (updO none o)) = _
  rw [foldl_updO]

theorem mem_of_lastSome {α : Type _} {l : List (Option α)} {v : α}
    (h : lastSome l = some v) : some v ∈ l := by
  induction l with
  | nil => simp [lastSome] at h
  | cons o t ih =>
    rw [lastSome_cons] at h
    cases ht : lastSome t with
    | some w => rw [ht] at h; simp [updO] at h; subst h; exact .tail _ (ih ht)
    | none =>
      rw [ht] at h
      cases o with
      | some w => simp [updO] at h; subst h; exact .head _
      | none => simp [updO] at h

theorem lastSome_reverse {α : Type _} (l : List (Option α)) :
    lastSome l.reverse = firstSome l := by
  induction l with
  | nil => rfl
  | cons o t ih =>
    rw [List.reverse_cons, lastSome_append, ih]
    cases o with
    | some v => rfl
    | none => show updO (firstSome t) none = firstSome t; rfl

theorem lastSome_map_filter {α β : Type _} (p : α → Bool) (f : α → Option β)
    (l : List α) (h : ∀ x ∈ l, p x = false → f x = none) :
    lastSome ((l.filter p).map f) = lastSome (l.map f) := by
  induction l with
  | nil => rfl
  | cons x t ih =>
    have ht : ∀ y ∈ t, p y = false → f y = none := fun y hy => h y (.tail _ hy)
    by_cases hp : p x
    · rw [List.filter_cons_of_pos hp]
      simp only [List.map_cons, lastSome_cons]
      rw [ih ht]
    · rw [List.filter_cons_of_neg (by simp [hp])]
      simp only [List.map_cons, lastSome_cons, h x (.head _) (by simp [hp]), ih ht]
      cases lastSome (t.map f) <;> rfl

theorem chPrefix_map (f : Char → Char) :
    ∀ {n h : List Char}, chPrefix n h = true → chPrefix (n.map f) (h.map f) = true := by
  intro n
  induction n with
  | nil => intro h _; rfl
  | cons a as ih =>
    intro h hp
    cases h with
    | nil => simp [chPrefix] at hp
    | cons b bs =>
      simp only [chPrefix] at hp
      split at hp
      · rename_i hab
        subst hab
        simpa [chPrefix] using ih hp
      · cases hp

theorem chSub_map (f : Char → Char) :
    ∀ {n h : List Char}, chSub n h = true → chSub (n.map f) (h.map f) = true := by
  intro n h
  induction h with
  | nil =>
    intro hs
    cases n with
    | nil => rfl
    | cons a as => simp [chSub, chPrefix] at hs
  | cons b bs ih =>
    intro hs
    simp only [chSub, Bool.or_eq_true] at hs ⊢
    rcases hs with hs | hs
    · exact .inl (chPrefix_map f hs)
    · exact .inr (ih hs)

theorem strContains_CI {s t : String} (h : strContains s t = true) :
    strContainsCI s t = true :=
  chSub_map lowChar h

theorem snd_mem_of_mem_enumFrom {α : Type _} :
    ∀ (l : List α) (n : Nat) (p : Nat × α), p ∈ List.enumFrom n l → p.2 ∈ l := by
  intro l
  induction l with
  | nil => intro n p hp; cases hp
  | cons a t ih =>
    intro n p hp
    cases hp with
    | head => exact .head _
    | tail _ hp => exact .tail _ (ih (n + 1) p hp)

theorem snd_mem_of_mem_enum {α : Type _} {l : List α} {p : Nat × α}
    (h : p ∈ l.enum) : p.2 ∈ l :=
  snd_mem_of_mem_enumFrom l 0 p h

theorem foldl_out_mem {σ β γ : Type _} (out : σ → List γ) (step : σ → β → σ)
    (Q : γ → β → Prop)
    (hstep : ∀ st p x, x ∈ out (step st p) → x ∈ out st ∨ Q x p) :
    ∀ (l : List β) (st : σ) (x : γ),
      x ∈ out (l.foldl step st) → x ∈ out st ∨ ∃ p ∈ l, Q x p := by
  intro l
  induction l with
  | nil => intro st x hx; exact .inl hx
  | cons b t ih =>
    intro st x hx
    rcases ih (step st b) x hx with hx | ⟨p, hp, hq⟩
    · rcases hstep st b x hx with hx | hq
      · exact .inl hx
      · exact .inr ⟨b, .head _, hq⟩
    · exact .inr ⟨p, .tail _ hp, hq⟩

/-- The leading characters a number rendering can start with. -/
def numHeads : List Char := ['-', '0', '1', '2', '3', '4', '5', '6', '7', '8', '9']

theorem digitChar_mem (n : Nat) : digitChar n ∈ numHeads := by
  unfold digitChar
  repeat' split
  all_goals decide

theorem natDigsGo_head (fuel n : Nat) :
    ∃ c t, natDigsGo (fuel + 1) n = c :: t ∧ c ∈ numHeads := by
  induction fuel generalizing n with
  | zero =>
    by_cases h : n < 10
    · exact ⟨digitChar n, [], by simp [natDigsGo, h], digitChar_mem n⟩
    · exact ⟨digitChar (n % 10), [], by simp [natDigsGo, h], digitChar_mem _⟩
  | succ f ih =>
    by_cases h : n < 10
    · exact ⟨digitChar n, [], by simp [natDigsGo, h], digitChar_mem n⟩
    · obtain ⟨c, t, hct, hc⟩ := ih (n / 10)
      refine ⟨c, t ++ [digitChar (n % 10)], ?_, hc⟩
      show (if n < 10 then [digitChar n]
            else natDigsGo (f + 1) (n / 10) ++ [digitChar (n % 10)]) = _
      rw [if_neg h, hct]
      rfl

theorem natDigs_head (n : Nat) : ∃ c t, natDigs n = c :: t ∧ c ∈ numHeads :=
  natDigsGo_head n n

theorem intStr_head (m : Int) : ∃ c t, intStr m = c :: t ∧ c ∈ numHeads := by
  cases m with
  | ofNat n => exact natDigs_head n
  | negSucc n => exact ⟨'-', natDigs (n + 1), rfl, by decide⟩

theorem ratStr_head (q : ℚ) : ∃ c t, ratStr q = c :: t ∧ c ∈ numHeads := by
  obtain ⟨c, t, hct, hc⟩ := intStr_head q.num
  unfold ratStr
  by_cases h : q.den = 1
  · exact ⟨c, t ++ ['.', '0'], by simp [h, hct], hc⟩
  · exact ⟨c, t ++ '/' :: natDigs q.den, by simp [h, hct], hc⟩

theorem deny_heads :
    (denyTokens.all (fun s => numHeads.all (fun c => s.toList.head? ≠ some c))) = true := by
  decide

theorem ratStr_not_deny (q : ℚ) : (⟨ratStr q⟩ : String) ∉ denyTokens := by
  intro hmem
  obtain ⟨c, t, hct, hc⟩ := ratStr_head q
  have hhead : (⟨ratStr q⟩ : String).toList.head? = some c := by
    show (ratStr q).head? = some c
    rw [hct]
    rfl
  have hall := List.all_eq_true.mp deny_heads _ hmem
  have := List.all_eq_true.mp hall _ hc
  simp only [decide_eq_true_eq] at this
  exact this hhead

theorem foldlM_ok {σ β : Type _} (step : σ → β → Except Unit σ) :
    ∀ l : List β, (∀ st b, b ∈ l → ∃ st2, step st b = .ok st2) →
      ∀ st, ∃ st2, l.foldlM step st = .ok st2 := by
  intro l
  induction l with
  | nil => intro _ st; exact ⟨st, rfl⟩
  | cons b t ih =>
    intro h st
    obtain ⟨st1, h1⟩ := h st b (.head _)
    obtain ⟨st2, h2⟩ := ih (fun st c hc => h st c (.tail _ hc)) st1
    refine ⟨st2, ?_⟩
    rw [List.foldlM_cons, h1]
    simpa [bind, Except.bind] using h2

theorem gasCellStep_ok (g : Grid) (idx : Nat) (row : List Cell)
    (st : Option String × GasDict) (c : Cell) (hc : c ∈ row) :
    ∃ st2, gasCellStep g idx row st c = .ok st2 := by
  unfold gasCellStep
  by_cases h1 : strContains c.toStr "Max. Gas Reading at:" = true
  · have hidx : ∃ i, row.findIdx? (fun x => x = c) = some i := by
      have hsome : (row.findIdx? (fun x => x = c)).isSome = true := by
        rw [List.findIdx?_isSome, List.any_eq_true]
        exact ⟨c, hc, by simp⟩
      cases hf : row.findIdx? (fun x => x = c) with
      | some i => exact ⟨i, rfl⟩
      | none => rw [hf] at hsome; cases hsome
    obtain ⟨i, hi⟩ := hidx
    rw [if_pos h1]
    refine ⟨?_, ?_⟩
    · exact if i + 1 < row.length ∧ notna (row.getD (i + 1) .missing) = true then
        (some (row.getD (i + 1) .missing).toStr,
         setEntryEmpty st.2 (row.getD (i + 1) .missing).toStr) else st
    · show (listIndexE row c >>= _) = _
      rw [listIndexE, hi]
      show (Except.ok i >>= _) = _
      simp only [bind, Except.bind]
      split <;> rfl
  · rw [if_neg h1]
    by_cases h2 : strContains c.toStr "T.G" = true ∧ pyTruthy st.1 = true
    · rw [if_pos h2]
      cases hcf : st.1 with
      | some cf => exact ⟨_, rfl⟩
      | none => exact ⟨st, rfl⟩
    · rw [if_neg h2]
      exact ⟨st, rfl⟩

theorem extract_gas_readings_ok (g : Grid) : ∃ gd, extract_gas_readings g = .ok gd := by
  obtain ⟨st2, h⟩ := foldlM_ok
    (fun st p => p.2.foldlM (gasCellStep g p.1 p.2) st) g.enum
    (fun st p _ => foldlM_ok (gasCellStep g p.1 p.2) p.2
      (fun st2 c hc => gasCellStep_ok g p.1 p.2 st2 c hc) st)
    ((none : Option String), ([] : GasDict))
  refine ⟨st2.2, ?_⟩
  unfold extract_gas_readings
  rw [h]
  rfl

/-- Claim C1: for every input grid, of any shape and any cell contents, each
extraction function returns normally without raising: every string-to-float
coercion failure is caught at cell or row granularity (`tryPass` /
option-valued fields / a skipped row) and never escapes the scan. -/
theorem c1_no_raise (g : Grid) :
    (∃ w, extract_well_info g = .ok w) ∧
    (∃ d, extract_depths g = .ok d) ∧
    (∃ l, extract_formation_tops g = .ok l) ∧
    (∃ gd, extract_gas_readings g = .ok gd) ∧
    (∃ ds, extract_lithological_description g = .ok ds) ∧
    (∃ rs, extract_detailed_gas_readings g = .ok rs) :=
  ⟨⟨_, rfl⟩, ⟨_, rfl⟩, ⟨_, rfl⟩, extract_gas_readings_ok g, ⟨_, rfl⟩, ⟨_, rfl⟩⟩

/-- Claim C2: `progress_24hr` is present iff both `depth_24hr` and
`depth_00hr` are, and then equals `depth_00hr - depth_24hr` exactly (float
subtraction modelled as exact rational subtraction, `NaN` propagating);
likewise `progress_6hr` from `depth_00hr` and `depth_06hr`. -/
theorem c2_progress (g : Grid) (d : Depths) (h : extract_depths g = .ok d) :
    (d.progress_24hr.isSome ↔ (d.depth_24hr.isSome ∧ d.depth_00hr.isSome)) ∧
    (∀ a b, d.depth_24hr = some a → d.depth_00hr = some b →
      d.progress_24hr = some (esub b a)) ∧
    (d.progress_6hr.isSome ↔ (d.depth_00hr.isSome ∧ d.depth_06hr.isSome)) ∧
    (∀ b c, d.depth_00hr = some b → d.depth_06hr = some c →
      d.progress_6hr = some (esub c b)) := by
  unfold extract_depths at h
  injection h with h2
  subst h2
  rcases hst : depthsScan g with ⟨o1, o2, o3⟩
  cases o1 <;> cases o2 <;> cases o3 <;>
    simp [addProgress]

/-- Witness for C2 at `wg2`. -/
theorem c2_progress_witness :
    (wd2.progress_24hr.isSome ↔ (wd2.depth_24hr.isSome ∧ wd2.depth_00hr.isSome)) ∧
    (∀ a b, wd2.depth_24hr = some a → wd2.depth_00hr = some b →
      wd2.progress_24hr = some (esub b a)) ∧
    (wd2.progress_6hr.isSome ↔ (wd2.depth_00hr.isSome ∧ wd2.depth_06hr.isSome)) ∧
    (∀ b c, wd2.depth_00hr = some b → wd2.depth_06hr = some c →
      wd2.progress_6hr = some (esub c b)) :=
  c2_progress wg2 wd2 rfl

/-- Claim C9: the three-row sheet `Depth: From 100 To 150` /
`Lithology: * Sandstone` / `Fine grained, gray` yields exactly one record
with depth `100 - 150`, lithology `Sandstone` and the free-text description. -/
theorem c9_scenario :
    extract_lithological_description g9 =
      .ok [{ depth := "100 - 150", lithology := "Sandstone",
             description := "Fine grained, gray" }] := by
  decide

theorem ftopsStep_out_mem (st : Option Nat × List FormationTop) (p : Nat × List Cell)
    (x : FormationTop) (hx : x ∈ (ftopsStep st p).2) :
    x ∈ st.2 ∨ x ∈ ftopsCheckRow p.2 := by
  simp only [ftopsStep] at hx
  split at hx
  · exact .inl hx
  · split at hx
    · split at hx
      · rcases List.mem_append.mp hx with hx | hx
        · exact .inl hx
        · exact .inr hx
      · exact .inl hx
    · exact .inl hx

theorem ftopsCheckRow_name (row : List Cell) (x : FormationTop)
    (hx : x ∈ ftopsCheckRow row) : x.name ∉ denyTokens := by
  simp only [ftopsCheckRow] at hx
  split at hx
  · rename_i hcond
    rcases hcond with ⟨hlen, hna, hdeny⟩
    rcases List.mem_singleton.mp hx with rfl
    revert hna hdeny
    cases row.getD 2 Cell.missing with
    | missing => intro hna _; cases hna
    | str t =>
      intro _ hdeny hmem
      exact hdeny (by simpa [cellInStrList, List.contains, List.elem_iff] using hmem)
    | num q =>
      intro _ _ hmem
      exact ratStr_not_deny q hmem
  · cases hx

/-- Claim C5: no formation record ever carries one of the deny-list tokens as
its name. -/
theorem c5_denylist (g : Grid) (l : List FormationTop)
    (h : extract_formation_tops g = .ok l) :
    ∀ f ∈ l, f.name ∉ denyTokens := by
  unfold extract_formation_tops at h
  injection h with h2
  subst h2
  intro f hf
  rcases foldl_out_mem Prod.snd ftopsStep (fun x p => x ∈ ftopsCheckRow p.2)
      ftopsStep_out_mem g.enum (none, []) f hf with hx | ⟨p, _, hq⟩
  · cases hx
  · exact ftopsCheckRow_name p.2 f hq

/-- Witness for C5 at `wg5`. -/
theorem c5_denylist_witness : wf5.name ∉ denyTokens :=
  c5_denylist wg5 [wf5] (by decide) wf5 (.head _)

/-- Counterexample to C3 as stated: a `Spud Date` label row with no `":-"`
marker anywhere in the sheet still sets `spud_date`. -/
theorem c3_counterexample :
    extract_well_info cg3 = .ok { spud_date := some "Jan 1" } ∧
    cg3.all (fun row => row.all (fun c => !(strContains c.toStr ":-"))) = true := by
  decide

/-- Counterexample to C4 as stated: a data row with only a depth column
produces a reading in which `TG`, …, `C5` are not present at all (rather than
present with value `0`). -/
theorem c4_counterexample :
    extract_detailed_gas_readings cg4 = .ok [cr4] ∧
    cr4.TG = none ∧ cr4.C5 = none := by
  decide

/-- Counterexample to C6 as stated: the last row matching `24:00 Hrs`
(`cg6row`, whose neighbour `"abc"` does not parse) contributes no value, so
the returned value is the one of the earlier matching row. -/
theorem c6_counterexample :
    extract_depths cg6 = .ok { depth_24hr := some (some 100) } ∧
    cg6.getD 1 [] = cg6row ∧
    cg6row.any (fun c => strContains c.toStr "24:00 Hrs") = true ∧
    lastSome ((cg6row.enum).map (att24 cg6row)) = none := by
  decide

/-- Counterexample to C7 as stated: with `Youssef` on the bottom row and
`Mahmoud` above it, the scan returns `Mahmoud` - the match furthest from the
bottom of the window - not the first match from the bottom. -/
theorem c7_counterexample :
    extract_well_info cg7 = .ok ww7 ∧
    cg7.getD 2 [] = [Cell.str "Youssef"] ∧
    geoRowAttempt [Cell.str "Youssef"] = some "Youssef" ∧
    ww7.geologist = some "Mahmoud" ∧
    cg7.all (fun row => row.all (fun c => !(strContainsCI c.toStr "Geologist"))) = true := by
  decide

/-- Counterexample to C8 as stated: the first look-ahead row whose column 3 is
present and digit-tested holds `"1.2.3"`, which fails to parse; the scan does
not stop there but assigns the value of the next row `"5"`. -/
theorem c8_counterexample :
    extract_gas_readings cg8 = .ok [("F", some (some 5))] ∧
    digitTest (.str "1.2.3") = true ∧
    pyFloatE (.str "1.2.3") = .error () ∧
    (3 < ([Cell.missing, .missing, .missing, .str "1.2.3"] : List Cell).length) := by
  decide

theorem findLabeled_some (label : String) (m : Bool) (g : Grid) (v : String)
    (h : findLabeled label m g = some v) :
    ∃ c ∈ g.flatten, strContains c.toStr label = true ∧
      (m = true → strContains c.toStr ":-" = true) := by
  unfold findLabeled at h
  rcases List.mem_map.mp (mem_of_lastSome h) with ⟨row, hrow, hatt⟩
  have hrowg : row ∈ g := List.mem_of_mem_filter hrow
  unfold rowLabelAttempt at hatt
  cases hfind : (row.enum).find? (fun p =>
      strContains p.2.toStr label && (!m || strContains p.2.toStr ":-")) with
  | none => rw [hfind] at hatt; cases hatt
  | some p =>
    rcases p with ⟨i, c⟩
    rw [hfind] at hatt
    have hpred := List.find?_some hfind
    have hcmem : c ∈ row := snd_mem_of_mem_enum (List.mem_of_find?_eq_some hfind)
    simp only [Bool.and_eq_true, Bool.or_eq_true] at hpred
    refine ⟨c, List.mem_flatten_of_mem hrowg hcmem, hpred.1, ?_⟩
    intro hm
    subst hm
    rcases hpred.2 with h2 | h2
    · cases h2
    · exact h2

/-- Claim C3 (amended): the fields `well`, `date` and `rkb` are set only from
a row whose matched label cell also contains the marker `":-"`, while
`concession`, `report_no` - and, unlike the claim as stated, also `spud_date` -
are matched by the label alone. -/
theorem c3_markers (g : Grid) (w : WellInfo) (h : extract_well_info g = .ok w) :
    (∀ v, w.well = some v → ∃ c ∈ g.flatten,
      strContains c.toStr "Well" = true ∧ strContains c.toStr ":-" = true) ∧
    (∀ v, w.date = some v → ∃ c ∈ g.flatten,
      strContains c.toStr "Date" = true ∧ strContains c.toStr ":-" = true) ∧
    (∀ v, w.rkb = some v → ∃ c ∈ g.flatten,
      strContains c.toStr "RKB" = true ∧ strContains c.toStr ":-" = true) ∧
    (∀ v, w.spud_date = some v → ∃ c ∈ g.flatten,
      strContains c.toStr "Spud Date" = true) ∧
    (∀ v, w.concession = some v → ∃ c ∈ g.flatten,
      strContains c.toStr "Concession" = true) ∧
    (∀ v, w.report_no = some v → ∃ c ∈ g.flatten,
      strContains c.toStr "Report No" = true) := by
  unfold extract_well_info at h
  injection h with h2
  subst h2
  refine ⟨?_, ?_, ?_, ?_, ?_, ?_⟩
  · intro v hv
    obtain ⟨c, hc, h1, h2⟩ := findLabeled_some "Well" true g v hv
    exact ⟨c, hc, h1, h2 rfl⟩
  · intro v hv
    obtain ⟨c, hc, h1, h2⟩ := findLabeled_some "Date" true g v hv
    exact ⟨c, hc, h1, h2 rfl⟩
  · intro v hv
    obtain ⟨c, hc, h1, h2⟩ := findLabeled_some "RKB" true g v hv
    exact ⟨c, hc, h1, h2 rfl⟩
  · intro v hv
    obtain ⟨c, hc, h1, _⟩ := findLabeled_some "Spud Date" false g v hv
    exact ⟨c, hc, h1⟩
  · intro v hv
    obtain ⟨c, hc, h1, _⟩ := findLabeled_some "Concession" false g v hv
    exact ⟨c, hc, h1⟩
  · intro v hv
    obtain ⟨c, hc, h1, _⟩ := findLabeled_some "Report No" false g v hv
    exact ⟨c, hc, h1⟩

/-- Witness for C3 (amended) at `wg3`. -/
theorem c3_markers_witness :
    (∀ v, ww3.well = some v → ∃ c ∈ wg3.flatten,
      strContains c.toStr "Well" = true ∧ strContains c.toStr ":-" = true) ∧
    (∀ v, ww3.date = some v → ∃ c ∈ wg3.flatten,
      strContains c.toStr "Date" = true ∧ strContains c.toStr ":-" = true) ∧
    (∀ v, ww3.rkb = some v → ∃ c ∈ wg3.flatten,
      strContains c.toStr "RKB" = true ∧ strContains c.toStr ":-" = true) ∧
    (∀ v, ww3.spud_date = some v → ∃ c ∈ wg3.flatten,
      strContains c.toStr "Spud Date" = true) ∧
    (∀ v, ww3.concession = some v → ∃ c ∈ wg3.flatten,
      strContains c.toStr "Concession" = true) ∧
    (∀ v, ww3.report_no = some v → ∃ c ∈ wg3.flatten,
      strContains c.toStr "Report No" = true) :=
  c3_markers wg3 ww3 (by decide)

/-- Claim C7 (amended): when no cell matches `Geologist` (case-insensitively),
the geologist is the value of the bottom-up window scan in which every
matching row overwrites the previous hit - equivalently, the first match in
top-to-bottom order over the window (rows `max(0, len-10)+1 … len-1`), not
the first match from the bottom. -/
theorem c7_fallback (g : Grid) (w : WellInfo) (h : extract_well_info g = .ok w)
    (hno : g.filter (rowPassesCI "Geologist") = []) :
    w.geologist = firstSome ((geoWindowAsc g).map geoRowAttempt) := by
  unfold extract_well_info at h
  injection h with h2
  subst h2
  show (if (g.filter (rowPassesCI "Geologist")).isEmpty then fallbackGeo g
        else findLabeled "Geologist" false g) = _
  rw [hno]
  show fallbackGeo g = _
  have hrev : (geoWindow g).map geoRowAttempt =
      ((geoWindowAsc g).map geoRowAttempt).reverse := by
    unfold geoWindow geoWindowAsc
    rw [List.map_reverse, List.map_reverse]
  unfold fallbackGeo
  rw [hrev, lastSome_reverse]

/-- Witness for C7 (amended) at `cg7`. -/
theorem c7_fallback_witness :
    ww7.geologist = firstSome ((geoWindowAsc cg7).map geoRowAttempt) :=
  c7_fallback cg7 ww7 (by decide) (by decide)

theorem gasCellStep_none (g : Grid) (idx : Nat) (row : List Cell) (gd : GasDict)
    (c : Cell) (hc : strContains c.toStr "Max. Gas Reading at:" = false) :
    gasCellStep g idx row (none, gd) c = .ok (none, gd) := by
  unfold gasCellStep
  rw [if_neg (by simp [hc])]
  rw [if_neg (by simp [pyTruthy])]
  rfl

theorem gasCells_none (g : Grid) (idx : Nat) (row : List Cell) (gd : GasDict) :
    ∀ l : List Cell, (∀ c ∈ l, strContains c.toStr "Max. Gas Reading at:" = false) →
      l.foldlM (gasCellStep g idx row) ((none : Option String), gd) = .ok (none, gd) := by
  intro l
  induction l with
  | nil => intro _; rfl
  | cons c t ih =>
    intro h
    rw [List.foldlM_cons, gasCellStep_none g idx row gd c (h c (.head _))]
    show t.foldlM (gasCellStep g idx row) (none, gd) = _
    exact ih (fun x hx => h x (.tail _ hx))

theorem gasRows_none (g : Grid) :
    ∀ L : List (Nat × List Cell),
      (∀ p ∈ L, ∀ c ∈ p.2, strContains c.toStr "Max. Gas Reading at:" = false) →
      L.foldlM (fun st p => p.2.foldlM (gasCellStep g p.1 p.2) st)
        ((none : Option String), ([] : GasDict)) = .ok (none, []) := by
  intro L
  induction L with
  | nil => intro _; rfl
  | cons p t ih =>
    intro h
    rw [List.foldlM_cons, gasCells_none g p.1 p.2 [] p.2 (h p (.head _))]
    show t.foldlM _ ((none : Option String), ([] : GasDict)) = _
    exact ih (fun x hx => h x (.tail _ hx))

theorem tgLoop_spec (gd : GasDict) (cf : String)
    (hkey : gd.any (fun e => e.1 = cf) = true) :
    ∀ rows : List (List Cell), tgLoop gd cf rows =
      (firstSome (rows.map tgAttempt)).elim gd (fun v => setTGval gd cf v) := by
  intro rows
  induction rows with
  | nil => rfl
  | cons row rest ih =>
    simp only [tgLoop]
    by_cases hcond : (3 < row.length ∧ notna (row.getD 3 .missing) = true ∧
        digitTest (row.getD 3 .missing) = true)
    · rw [if_pos hcond]
      cases hpf : pyFloatE (row.getD 3 .missing) with
      | ok v =>
        have hupd : updTG gd cf v = some (setTGval gd cf v) := by
          unfold updTG setTGval
          rw [if_pos hkey]
        have hatt : tgAttempt row = some v := by
          unfold tgAttempt
          rw [if_pos hcond, hpf]
          rfl
        simp [hupd, List.map_cons, firstSome, hatt]
      | error e =>
        have hatt : tgAttempt row = none := by
          unfold tgAttempt
          rw [if_pos hcond, hpf]
          rfl
        simp only [List.map_cons, hatt, firstSome]
        exact ih
    · rw [if_neg hcond]
      have hatt : tgAttempt row = none := by
        unfold tgAttempt
        rw [if_neg hcond]
      simp only [List.map_cons, hatt, firstSome]
      exact ih

/-- Claim C8 (amended): with no formation context ever established (no
`Max. Gas Reading at:` cell), `T.G` cells have no effect and the result is
empty; and the look-ahead assigns the value of the first row whose column 3 is
present, digit-tested *and parses as a float* (a digit-tested cell that fails
to parse, e.g. `"1.2.3"`, is skipped and the scan continues), stopping at that
first fully valid row. -/
theorem c8_lookahead :
    (∀ g : Grid,
      (∀ row ∈ g, ∀ c ∈ row, strContains c.toStr "Max. Gas Reading at:" = false) →
      extract_gas_readings g = .ok []) ∧
    (∀ (gd : GasDict) (cf : String) (rows : List (List Cell)),
      gd.any (fun e => e.1 = cf) = true →
      tgLoop gd cf rows =
        (firstSome (rows.map tgAttempt)).elim gd (fun v => setTGval gd cf v)) := by
  constructor
  · intro g hg
    unfold extract_gas_readings
    rw [gasRows_none g g.enum
      (fun p hp c hc => hg p.2 (snd_mem_of_mem_enum hp) c hc)]
    rfl
  · intro gd cf rows hkey
    exact tgLoop_spec gd cf hkey rows

/-- Witness for C8 (amended) at `wg8`, `wgd8`, `wrows8`. -/
theorem c8_lookahead_witness :
    extract_gas_readings wg8 = .ok [] ∧
    tgLoop wgd8 "F" wrows8 =
      (firstSome (wrows8.map tgAttempt)).elim wgd8 (fun v => setTGval wgd8 "F" v) :=
  ⟨c8_lookahead.1 wg8 (by decide), c8_lookahead.2 wgd8 "F" wrows8 (by decide)⟩

theorem lithoFlush_lith (st : LithoState) :
    (lithoFlush st).current_lithology = st.current_lithology := by
  unfold lithoFlush
  split <;> rfl

theorem lithoFlush_out (st : LithoState) (d : LithoDesc)
    (hd : d ∈ (lithoFlush st).out) :
    d ∈ st.out ∨ some d.lithology = st.current_lithology := by
  unfold lithoFlush at hd
  split at hd
  · rename_i hcond
    rcases List.mem_append.mp hd with hd | hd
    · exact .inl hd
    · rcases List.mem_singleton.mp hd with rfl
      rcases hcond with ⟨_, hl, _⟩
      cases hcl : st.current_lithology with
      | none => rw [hcl] at hl; simp [pyTruthy] at hl
      | some s => right; simp [hcl]
  · exact .inl hd

theorem lithoRowStep_lith_depth (st : LithoState) (row : List Cell)
    (h : strContains (rowJoin row) "Depth:" = true) :
    (lithoRowStep st row).current_lithology = st.current_lithology := by
  simp only [lithoRowStep]
  rw [if_pos h]
  cases hds : depthSearch (rowJoin row) with
  | none => exact lithoFlush_lith st
  | some p => cases p with | mk a b => exact lithoFlush_lith st

theorem lithoRowStep_lith (st : LithoState) (row : List Cell)
    (h : strContains (rowJoin row) "Lithology:" = false) :
    (lithoRowStep st row).current_lithology = st.current_lithology := by
  by_cases hdep : strContains (rowJoin row) "Depth:" = true
  · exact lithoRowStep_lith_depth st row hdep
  · simp only [lithoRowStep]
    rw [if_neg hdep, if_neg (by simp [h])]
    split <;> rfl

theorem lithoRowStep_out (st : LithoState) (row : List Cell) (d : LithoDesc)
    (hd : d ∈ (lithoRowStep st row).out) :
    d ∈ st.out ∨ some d.lithology = st.current_lithology := by
  simp only [lithoRowStep] at hd
  split at hd
  · revert hd
    cases hds : depthSearch (rowJoin row) with
    | none => exact fun hd => lithoFlush_out st d hd
    | some p => cases p with | mk a b => exact fun hd => lithoFlush_out st d hd
  · split at hd
    · revert hd
      cases hls : lithSearch (rowJoin row).toList with
      | none => exact fun hd => .inl hd
      | some cap => exact fun hd => .inl hd
    · split at hd
      · exact .inl hd
      · exact .inl hd

theorem lithoRun_inherit (rows : Grid) :
    ∀ st : LithoState, (∀ row ∈ rows, strContains (rowJoin row) "Lithology:" = false) →
      (lithoRun st rows).current_lithology = st.current_lithology ∧
      ∀ d ∈ (lithoRun st rows).out, d ∈ st.out ∨ some d.lithology = st.current_lithology := by
  induction rows with
  | nil => exact fun st _ => ⟨rfl, fun d hd => .inl hd⟩
  | cons row rest ih =>
    intro st h
    have hstep : (lithoRowStep st row).current_lithology = st.current_lithology :=
      lithoRowStep_lith st row (h row (.head _))
    obtain ⟨ihl, iho⟩ := ih (lithoRowStep st row) (fun r hr => h r (.tail _ hr))
    constructor
    · show (lithoRun (lithoRowStep st row) rest).current_lithology = _
      rw [ihl, hstep]
    · intro d hd
      rcases iho d hd with hd2 | hd2
      · rcases lithoRowStep_out st row d hd2 with hd3 | hd3
        · exact .inl hd3
        · exact .inr hd3
      · rw [hstep] at hd2
        exact .inr hd2

/-- Claim C10: a `Depth:` row flushes the section but does not reset the
current lithology; over any run of rows containing no `Lithology:` marker the
lithology is inherited unchanged and every newly emitted record carries it;
concretely, on `g10` the second section (which has no `Lithology:` row) is
still emitted, with the lithology of the first section. -/
theorem c10_inherit :
    (∀ (st : LithoState) (row : List Cell), strContains (rowJoin row) "Depth:" = true →
      (lithoRowStep st row).current_lithology = st.current_lithology) ∧
    (∀ (st : LithoState) (rows : Grid),
      (∀ row ∈ rows, strContains (rowJoin row) "Lithology:" = false) →
      (lithoRun st rows).current_lithology = st.current_lithology ∧
      ∀ d ∈ (lithoRun st rows).out, d ∈ st.out ∨ some d.lithology = st.current_lithology) ∧
    extract_lithological_description g10 =
      .ok [{ depth := "100 - 150", lithology := "Sandstone", description := "Fine grained" },
           { depth := "200 - 250", lithology := "Sandstone", description := "Coarse grained" }] := by
  refine ⟨lithoRowStep_lith_depth, fun st rows h => lithoRun_inherit rows st h, ?_⟩
  decide

/-- Witness for C10 at `wst10`, `wrow10`, `wrows10`. -/
theorem c10_inherit_witness :
    (lithoRowStep wst10 wrow10).current_lithology = wst10.current_lithology ∧
    ((lithoRun wst10 wrows10).current_lithology = wst10.current_lithology ∧
     ∀ d ∈ (lithoRun wst10 wrows10).out,
       d ∈ wst10.out ∨ some d.lithology = wst10.current_lithology) :=
  ⟨c10_inherit.1 wst10 wrow10 (by decide),
   c10_inherit.2.1 wst10 wrows10 (by decide)⟩

theorem exBind_ok {α β : Type _} (x : Except Unit α) (f : α → Except Unit β) (b : β)
    (h : (x >>= f) = .ok b) : ∃ a, x = .ok a ∧ f a = .ok b := by
  cases x with
  | ok a => exact ⟨a, rfl, h⟩
  | error e => cases h

theorem fieldVal_spec (row : List Cell) (k : Nat) (o : Option EFloat)
    (h : fieldVal row k = .ok o) :
    (o.isSome = true ↔ k < row.length) ∧
    ∀ v, o = some v → condVal row k = .ok v := by
  unfold fieldVal at h
  split at h
  · rename_i hk
    obtain ⟨v, hv, h2⟩ := exBind_ok _ _ _ h
    injection h2 with h3
    subst h3
    refine ⟨by simp [hk], ?_⟩
    intro w hw
    injection hw with hvw
    subst hvw
    exact hv
  · rename_i hk
    injection h with h3
    subst h3
    exact ⟨by simp [hk], fun w hw => by cases hw⟩

theorem rowBody_fields (row : List Cell) (r : GasReading) (h : rowBody row = .ok r) :
    pyFloatE (row.getD 0 .missing) = .ok r.DEPTH ∧
    fieldVal row 7 = .ok r.TG ∧ fieldVal row 8 = .ok r.C1 ∧
    fieldVal row 9 = .ok r.C2 ∧ fieldVal row 10 = .ok r.C3 ∧
    fieldVal row 11 = .ok r.C4I ∧ fieldVal row 12 = .ok r.C4N ∧
    fieldVal row 13 = .ok r.C5 := by
  unfold rowBody at h
  obtain ⟨d, h0, h⟩ := exBind_ok _ _ _ h
  obtain ⟨tg, h7, h⟩ := exBind_ok _ _ _ h
  obtain ⟨v1, h8, h⟩ := exBind_ok _ _ _ h
  obtain ⟨v2, h9, h⟩ := exBind_ok _ _ _ h
  obtain ⟨v3, h10, h⟩ := exBind_ok _ _ _ h
  obtain ⟨v4, h11, h⟩ := exBind_ok _ _ _ h
  obtain ⟨v5, h12, h⟩ := exBind_ok _ _ _ h
  obtain ⟨v6, h13, h⟩ := exBind_ok _ _ _ h
  injection h with h2
  subst h2
  exact ⟨h0, h7, h8, h9, h10, h11, h12, h13⟩

theorem mkReading_some (row : List Cell) (r : GasReading)
    (h : mkReading row = some r) : rowBody row = .ok r := by
  simp only [mkReading] at h
  split at h
  · cases hb : rowBody row with
    | ok r2 =>
      rw [hb] at h
      simp only [Except.toOption] at h
      injection h with h2
      subst h2
      rfl
    | error e =>
      rw [hb] at h
      simp [Except.toOption] at h
  · cases h

theorem dgrStep_out_mem (st : Option Nat × List GasReading) (p : Nat × List Cell)
    (x : GasReading) (hx : x ∈ (dgrStep st p).2) :
    x ∈ st.2 ∨ mkReading p.2 = some x := by
  simp only [dgrStep] at hx
  split at hx
  · exact .inl hx
  · split at hx
    · split at hx
      · rcases List.mem_append.mp hx with hx | hx
        · exact .inl hx
        · right
          simpa using (Option.mem_toList.mp hx)
      · exact .inl hx
    · exact .inl hx

/-- Claim C4 (amended): each gas field of an emitted reading is *present in
the record iff the corresponding source column (7-13) exists in the row*; when
present, its value is the cell parsed as a float if the cell is non-missing
and digit-tested, else `0` (so a reading emitted from a short row has no gas
keys at all, rather than keys with value `0`). -/
theorem c4_fields (g : Grid) (l : List GasReading)
    (h : extract_detailed_gas_readings g = .ok l) :
    (∀ (row : List Cell) (k : Nat),
      ((notna (row.getD k .missing) = true ∧ digitTest (row.getD k .missing) = true) →
        condVal row k = pyFloatE (row.getD k .missing)) ∧
      (¬(notna (row.getD k .missing) = true ∧ digitTest (row.getD k .missing) = true) →
        condVal row k = .ok (some 0))) ∧
    ∀ r ∈ l, ∃ row ∈ g, mkReading row = some r ∧
      ((r.TG.isSome = true ↔ 7 < row.length) ∧
        ∀ v, r.TG = some v → condVal row 7 = .ok v) ∧
      ((r.C1.isSome = true ↔ 8 < row.length) ∧
        ∀ v, r.C1 = some v → condVal row 8 = .ok v) ∧
      ((r.C2.isSome = true ↔ 9 < row.length) ∧
        ∀ v, r.C2 = some v → condVal row 9 = .ok v) ∧
      ((r.C3.isSome = true ↔ 10 < row.length) ∧
        ∀ v, r.C3 = some v → condVal row 10 = .ok v) ∧
      ((r.C4I.isSome = true ↔ 11 < row.length) ∧
        ∀ v, r.C4I = some v → condVal row 11 = .ok v) ∧
      ((r.C4N.isSome = true ↔ 12 < row.length) ∧
        ∀ v, r.C4N = some v → condVal row 12 = .ok v) ∧
      ((r.C5.isSome = true ↔ 13 < row.length) ∧
        ∀ v, r.C5 = some v → condVal row 13 = .ok v) := by
  constructor
  · intro row k
    constructor
    · intro hc
      unfold condVal
      rw [if_pos hc]
    · intro hc
      unfold condVal
      rw [if_neg hc]
      rfl
  · unfold extract_detailed_gas_readings at h
    injection h with h2
    subst h2
    intro r hr
    rcases foldl_out_mem Prod.snd dgrStep (fun x p => mkReading p.2 = some x)
        dgrStep_out_mem g.enum (none, []) r hr with hx | ⟨p, hp, hq⟩
    · cases hx
    · have hrow : p.2 ∈ g := snd_mem_of_mem_enum hp
      have hb := rowBody_fields p.2 r (mkReading_some p.2 r hq)
      refine ⟨p.2, hrow, hq, ?_, ?_, ?_, ?_, ?_, ?_, ?_⟩
      · exact fieldVal_spec p.2 7 r.TG hb.2.1
      · exact fieldVal_spec p.2 8 r.C1 hb.2.2.1
      · exact fieldVal_spec p.2 9 r.C2 hb.2.2.2.1
      · exact fieldVal_spec p.2 10 r.C3 hb.2.2.2.2.1
      · exact fieldVal_spec p.2 11 r.C4I hb.2.2.2.2.2.1
      · exact fieldVal_spec p.2 12 r.C4N hb.2.2.2.2.2.2.1
      · exact fieldVal_spec p.2 13 r.C5 hb.2.2.2.2.2.2.2

/-- Witness for C4 (amended) at `wg4`. -/
theorem c4_fields_witness :
    ∃ row ∈ wg4, mkReading row = some wr4 ∧
      ((wr4.TG.isSome = true ↔ 7 < row.length) ∧
        ∀ v, wr4.TG = some v → condVal row 7 = .ok v) ∧
      ((wr4.C1.isSome = true ↔ 8 < row.length) ∧
        ∀ v, wr4.C1 = some v → condVal row 8 = .ok v) ∧
      ((wr4.C2.isSome = true ↔ 9 < row.length) ∧
        ∀ v, wr4.C2 = some v → condVal row 9 = .ok v) ∧
      ((wr4.C3.isSome = true ↔ 10 < row.length) ∧
        ∀ v, wr4.C3 = some v → condVal row 10 = .ok v) ∧
      ((wr4.C4I.isSome = true ↔ 11 < row.length) ∧
        ∀ v, wr4.C4I = some v → condVal row 11 = .ok v) ∧
      ((wr4.C4N.isSome = true ↔ 12 < row.length) ∧
        ∀ v, wr4.C4N = some v → condVal row 12 = .ok v) ∧
      ((wr4.C5.isSome = true ↔ 13 < row.length) ∧
        ∀ v, wr4.C5 = some v → condVal row 13 = .ok v) :=
  (c4_fields wg4 [wr4] (by decide)).2 wr4 (.head _)

theorem depthsCellStep_eq (row : List Cell) (st : DepthState) (p : Nat × Cell) :
    depthsCellStep row st p =
      { depth_24hr := updO st.depth_24hr (att24 row p),
        depth_00hr := updO st.depth_00hr (att00 row p),
        depth_06hr := updO st.depth_06hr (att06 row p) } := by
  rcases st with ⟨o1, o2, o3⟩
  unfold depthsCellStep att24 att00 att06 tryPass
  by_cases h1 : (strContains p.2.toStr "24:00 Hrs" = true ∧ p.1 + 1 < row.length)
  · cases hpf : pyFloatE (row.getD (p.1 + 1) Cell.missing) <;>
      simp [h1, hpf, updO, bind, Except.bind, Except.toOption, pure, Except.pure]
  · by_cases h2 : (strContains p.2.toStr "00:00 Hrs" = true ∧ p.1 + 1 < row.length)
    · have hA : ¬(strContains p.2.toStr "24:00 Hrs" = true) := fun hA => h1 ⟨hA, h2.2⟩
      cases hpf : pyFloatE (row.getD (p.1 + 1) Cell.missing) <;>
        simp [h1, h2, hA, hpf, updO, bind, Except.bind, Except.toOption, pure, Except.pure]
    · by_cases h3 : (strContains p.2.toStr "06:00 Hrs" = true ∧ p.1 + 1 < row.length)
      · have hA : ¬(strContains p.2.toStr "24:00 Hrs" = true) := fun hA => h1 ⟨hA, h3.2⟩
        have hC : ¬(strContains p.2.toStr "00:00 Hrs" = true) := fun hC => h2 ⟨hC, h3.2⟩
        cases hpf : pyFloatE (row.getD (p.1 + 1) Cell.missing) <;>
          simp [h1, h2, h3, hA, hC, hpf, updO, bind, Except.bind, Except.toOption,
            pure, Except.pure]
      · simp [h1, h2, h3, updO]

theorem depthsRow_eq (row : List Cell) :
    ∀ (l : List (Nat × Cell)) (st : DepthState),
      l.foldl (depthsCellStep row) st =
        { depth_24hr := (l.map (att24 row)).foldl updO st.depth_24hr,
          depth_00hr := (l.map (att00 row)).foldl updO st.depth_00hr,
          depth_06hr := (l.map (att06 row)).foldl updO st.depth_06hr } := by
  intro l
  induction l with
  | nil => intro st; cases st; rfl
  | cons p t ih =>
    intro st
    show t.foldl (depthsCellStep row) (depthsCellStep row st p) = _
    rw [ih (depthsCellStep row st p), depthsCellStep_eq]
    rfl

theorem depthsGrid_eq :
    ∀ (l : Grid) (st : DepthState),
      l.foldl (fun st row => (row.enum).foldl (depthsCellStep row) st) st =
        { depth_24hr :=
            ((l.map (fun row => (row.enum).map (att24 row))).flatten).foldl updO
              st.depth_24hr,
          depth_00hr :=
            ((l.map (fun row => (row.enum).map (att00 row))).flatten).foldl updO
              st.depth_00hr,
          depth_06hr :=
            ((l.map (fun row => (row.enum).map (att06 row))).flatten).foldl updO
              st.depth_06hr } := by
  intro l
  induction l with
  | nil => intro st; cases st; rfl
  | cons row rest ih =>
    intro st
    show rest.foldl _ ((row.enum).foldl (depthsCellStep row) st) = _
    rw [depthsRow_eq row row.enum st, ih]
    simp only [List.map_cons, List.flatten_cons, List.foldl_append]

theorem depthsScan_eq (g : Grid) :
    depthsScan g =
      { depth_24hr := lastSome (depthAtts att24 g),
        depth_00hr := lastSome (depthAtts att00 g),
        depth_06hr := lastSome (depthAtts att06 g) } :=
  depthsGrid_eq g {}

theorem findLabeled_eq (label : String) (m : Bool) (g : Grid) :
    findLabeled label m g = lastSome (g.map (rowLabelAttempt label m)) := by
  unfold findLabeled
  apply lastSome_map_filter
  intro row _ hpass
  cases hf : (row.enum).find? (fun p =>
      strContains p.2.toStr label && (!m || strContains p.2.toStr ":-")) with
  | none =>
    unfold rowLabelAttempt
    rw [hf]
  | some p =>
    exfalso
    have hpred := List.find?_some hf
    have hcmem : p.2 ∈ row := snd_mem_of_mem_enum (List.mem_of_find?_eq_some hf)
    simp only [Bool.and_eq_true] at hpred
    have hall : rowPassesCI label row = true := by
      unfold rowPassesCI
      rw [List.any_eq_true]
      exact ⟨p.2, hcmem, strContains_CI hpred.1⟩
    rw [hpass] at hall
    cases hall

/-- Claim C6 (amended): each labelled well-info field and each depth field is
the value of the last *successful* per-row (per-cell, for depths) extraction
attempt in scan order - later successful matches overwrite earlier ones, but
a matching row whose attempt yields no value (missing right neighbour, or a
failed float parse) leaves the earlier value in place. -/
theorem c6_overwrite (g : Grid) (w : WellInfo) (d : Depths)
    (hw : extract_well_info g = .ok w) (hd : extract_depths g = .ok d) :
    w.concession = lastSome (g.map (rowLabelAttempt "Concession" false)) ∧
    w.well = lastSome (g.map (rowLabelAttempt "Well" true)) ∧
    w.date = lastSome (g.map (rowLabelAttempt "Date" true)) ∧
    w.report_no = lastSome (g.map (rowLabelAttempt "Report No" false)) ∧
    w.rkb = lastSome (g.map (rowLabelAttempt "RKB" true)) ∧
    w.spud_date = lastSome (g.map (rowLabelAttempt "Spud Date" false)) ∧
    d.depth_24hr = lastSome (depthAtts att24 g) ∧
    d.depth_00hr = lastSome (depthAtts att00 g) ∧
    d.depth_06hr = lastSome (depthAtts att06 g) := by
  unfold extract_well_info at hw
  injection hw with hw2
  subst hw2
  unfold extract_depths at hd
  injection hd with hd2
  subst hd2
  refine ⟨findLabeled_eq _ _ g, findLabeled_eq _ _ g, findLabeled_eq _ _ g,
    findLabeled_eq _ _ g, findLabeled_eq _ _ g, findLabeled_eq _ _ g, ?_, ?_, ?_⟩
  · show (addProgress (depthsScan g)).depth_24hr = _
    rw [depthsScan_eq]
    rfl
  · show (addProgress (depthsScan g)).depth_00hr = _
    rw [depthsScan_eq]
    rfl
  · show (addProgress (depthsScan g)).depth_06hr = _
    rw [depthsScan_eq]
    rfl

/-- Witness for C6 (amended) at `wg6`. -/
theorem c6_overwrite_witness :
    ww6.concession = lastSome (wg6.map (rowLabelAttempt "Concession" false)) ∧
    ww6.well = lastSome (wg6.map (rowLabelAttempt "Well" true)) ∧
    ww6.date = lastSome (wg6.map (rowLabelAttempt "Date" true)) ∧
    ww6.report_no = lastSome (wg6.map (rowLabelAttempt "Report No" false)) ∧
    ww6.rkb = lastSome (wg6.map (rowLabelAttempt "RKB" true)) ∧
    ww6.spud_date = lastSome (wg6.map (rowLabelAttempt "Spud Date" false)) ∧
    wd6.depth_24hr = lastSome (depthAtts att24 wg6) ∧
    wd6.depth_00hr = lastSome (depthAtts att00 wg6) ∧
    wd6.depth_06hr = lastSome (depthAtts att06 wg6) :=
  c6_overwrite wg6 ww6 wd6 (by decide) (by decide)
